import Mathlib

/-!
Verification development for the ConnectLife-Cloud device protocol and
live-update subsystem.  The Lean definitions below are shallow embeddings of
the Python source files `device_manager.py`, `mode_converter.py` and
`websocket.py`.  Python dictionaries are modelled as ordered association
lists (insertion order preserved, assignment updates in place), Python
exceptions as `Except String`, and dynamic Python values as the `PVal` type.
-/

namespace ConnectLife

instance {ε α : Type} [DecidableEq ε] [DecidableEq α] : DecidableEq (Except ε α) :=
  fun a b =>
    match a, b with
    | .ok a, .ok b =>
      if h : a = b then isTrue (by rw [h])
      else isFalse (fun hc => h (by cases hc; rfl))
    | .error a, .error b =>
      if h : a = b then isTrue (by rw [h])
      else isFalse (fun hc => h (by cases hc; rfl))
    | .ok _, .error _ => isFalse (fun hc => Except.noConfusion hc)
    | .error _, .ok _ => isFalse (fun hc => Except.noConfusion hc)

/-- A dynamic Python value, covering the shapes that flow through the
capability filter: `None`, strings, integers and (unhashable) lists —
modelled as lists of integers, enough to represent the unhashable records
the guards defend against. -/
inductive PVal where
  | none : PVal
  | str (s : String) : PVal
  | int (n : Int) : PVal
  | pylist (xs : List Int) : PVal
deriving Repr, DecidableEq

/-- Python `==` on `PVal` (structural equality; values of different shapes
compare unequal, as for the shapes involved here in Python). -/
def PVal.pyEq : PVal → PVal → Bool
  | .none, .none => true
  | .str a, .str b => a == b
  | .int a, .int b => a == b
  | .pylist a, .pylist b => a == b
  | _, _ => false

/-- `isinstance(v, (str, int, float, tuple))` — the hashability check used by
`device_manager.py` (`None` and lists fail it). -/
def PVal.hashable : PVal → Bool
  | .str _ => true
  | .int _ => true
  | _ => false

/-- Python truthiness of a `PVal`. -/
def PVal.truthy : PVal → Bool
  | .none => false
  | .str s => !(s == "")
  | .int n => !(n == 0)
  | .pylist xs => !xs.isEmpty

/-! ### String helpers (kernel-reducible embeddings of the Python string
operations used by the source) -/

/-- Whether `needle` is a prefix of `hay` (character lists). -/
def startsWithChars : List Char → List Char → Bool
  | [], _ => true
  | _ :: _, [] => false
  | a :: as, b :: bs => a == b && startsWithChars as bs

/-- Whether `needle` occurs inside `hay` (character lists); the empty needle
always occurs, matching Python's `in`. -/
def charsContain : List Char → List Char → Bool
  | [], needle => needle.isEmpty
  | c :: cs, needle => startsWithChars needle (c :: cs) || charsContain cs needle

/-- Python's `needle in hay` on strings. -/
def strContains (hay needle : String) : Bool :=
  charsContain hay.data needle.data

/-- Python's `str.lower()` (ASCII case folding; CJK characters unaffected,
as in the inputs this code receives). -/
def lowerStr (s : String) : String :=
  String.mk (s.data.map Char.toLower)

/-- Helper for `pySplitComma`: accumulates the current chunk (reversed). -/
def splitCommaAux : List Char → List Char → List String
  | [], acc => [String.mk acc.reverse]
  | c :: cs, acc =>
    if c == ',' then String.mk acc.reverse :: splitCommaAux cs []
    else splitCommaAux cs (c :: acc)

/-- Python's `s.split(",")` (so `"".split(",") == [""]`). -/
def pySplitComma (s : String) : List String :=
  splitCommaAux s.data []

/-! ### Data model: `DeviceAttribute` and attribute dictionaries
(from `devices/base.py`, used by `device_manager.py`) -/

/-- One controllable/readable device property, as constructed by the schema
modules and mutated by `DeviceParserFactory`.  `value_map` is an ordered
string-to-string dictionary; `value_range` holds whatever Python value the
server record carried (`None` when never set). -/
structure DeviceAttribute where
  key : String
  name : String
  attr_type : String
  step : Option Int := Option.none
  read_write : String := "R"
  value_range : PVal := PVal.none
  value_map : List (String × String) := []
deriving Repr, DecidableEq

/-- A Python `dict` from attribute key to `DeviceAttribute`, in insertion
order. -/
abbrev AttrMap := List (String × DeviceAttribute)

/-- Python dictionary lookup `m[s]` / `s in m` on an `AttrMap`. -/
def lookupA : AttrMap → String → Option DeviceAttribute
  | [], _ => Option.none
  | (k, v) :: rest, s => if k = s then some v else lookupA rest s

/-- Python dictionary assignment `m[s] = b`: updates the entry in place if
the key exists, else appends it. -/
def insertA : AttrMap → String → DeviceAttribute → AttrMap
  | [], s, b => [(s, b)]
  | (k, v) :: rest, s, b =>
    if k = s then (s, b) :: rest else (k, v) :: insertA rest s b

/-- One element of the `property_list` argument: either not a dict at all, or
a dict whose `propertyKey` / `propertyValueList` entries are `PVal`s
(`.get` of an absent `propertyValueList` yields `PVal.none`, which is
indistinguishable from a present `None`, so only `propertyKey` needs an
explicit presence flag for the `"propertyKey" in prop` test). -/
structure PropRec where
  isDict : Bool := true
  hasPropertyKey : Bool := true
  propertyKey : PVal := PVal.none
  propertyValueList : PVal := PVal.none
deriving Repr, DecidableEq

/-- `prop.get("propertyKey")` for a dict record. -/
def PropRec.keyGet (p : PropRec) : PVal :=
  if p.hasPropertyKey then p.propertyKey else PVal.none

/-- The comprehension
`[prop.get("propertyKey") for prop in property_list
  if isinstance(prop, dict) and "propertyKey" in prop]`. -/
def extractKeys (props : List PropRec) : List PVal :=
  props.filterMap fun p =>
    if p.isDict && p.hasPropertyKey then some p.propertyKey else Option.none

/-- The inner `for prop in property_list` loop of the filter: walks the
records; on a record whose `propertyKey` equals `key` it rebinds
`property_value_list` and breaks if that value is truthy (having assigned it
to `value_range`, reported through the returned flag).  After the loop the
last bound value leaks out; if no record ever matched, the variable is
unbound (`NameError`).  A non-dict record crashes `prop.get`
(`AttributeError`). -/
def scanProps (props : List PropRec) (key : PVal) (cur : Option PVal) :
    Except String (PVal × Bool) :=
  match props with
  | [] =>
    match cur with
    | some pvl => .ok (pvl, false)
    | Option.none => .error "NameError: property_value_list unbound"
  | p :: rest =>
    if !p.isDict then .error "AttributeError: get called on non-dict record"
    else if (p.keyGet).pyEq key then
      let pvl := p.propertyValueList
      if pvl.truthy then .ok (pvl, true)
      else scanProps rest key (some pvl)
    else scanProps rest key cur

/-- The `attribute.value_range = property_value_list` assignment, performed
exactly when the scan broke on a truthy value list. -/
def applyRange (assigned : Bool) (pvl : PVal) (a : DeviceAttribute) :
    DeviceAttribute :=
  match assigned with
  | true => { a with value_range := pvl }
  | false => a

/-- The `if attribute.value_map:` block: when the value map is non-empty,
intersect its key set with `property_value_list.split(",")` — crashing with
`AttributeError` when the leaked `property_value_list` is not a string. -/
def applyVmFilter (pvl : PVal) (a1 : DeviceAttribute) :
    Except String DeviceAttribute :=
  if a1.value_map = [] then .ok a1
  else
    match pvl with
    | .str s =>
      .ok { a1 with
            value_map :=
              a1.value_map.filter fun kv => (pySplitComma s).contains kv.1 }
    | _ => .error "AttributeError: split called on non-string"

/-- The per-key body of the filter loop: scan the property list for the
key's record, update `value_range` from it when its value list is truthy,
then filter the value map. -/
def processAttr (props : List PropRec) (key : PVal) (a : DeviceAttribute) :
    Except String DeviceAttribute :=
  match scanProps props key Option.none with
  | .error e => .error e
  | .ok (pvl, assigned) => applyVmFilter pvl (applyRange assigned pvl a)

/-- The `for key in property_keys` loop shared by
`create_filtered_parser` and `create_humidity_parser`.  `tmpl` is the (live,
aliased) template dictionary — attribute updates are written back into it,
modelling the in-place mutation of the shared `DeviceAttribute` objects —
and `view` is the `filtered_attributes` dictionary under construction. -/
def filterLoop (props : List PropRec) :
    List PVal → AttrMap → AttrMap → Except String (AttrMap × AttrMap)
  | [], tmpl, view => .ok (tmpl, view)
  | k :: rest, tmpl, view =>
    match k with
    | PVal.str s =>
      match lookupA tmpl s with
      | some a =>
        match processAttr props k a with
        | .error e => .error e
        | .ok b => filterLoop props rest (insertA tmpl s b) (insertA view s b)
      | Option.none => filterLoop props rest tmpl view
    | _ => filterLoop props rest tmpl view

/-- The forced `f_power_consumption` attribute
(`DeviceAttribute(key=..., name=..., attr_type="Number", step=1,
read_write="R")`). -/
def fpcDefault : DeviceAttribute :=
  { key := "f_power_consumption", name := "Power Consumption",
    attr_type := "Number", step := some 1, read_write := "R" }

/-- The "Force add f_power_consumption field" block of
`create_filtered_parser`. -/
def injectFpc (view : AttrMap) : AttrMap :=
  if lookupA view "f_power_consumption" = Option.none then
    insertA view "f_power_consumption" fpcDefault
  else view

/-- Modelled from the spec: the attribute dictionary of a freshly constructed
`BaseBeanParser()` — `devices/base_bean.py` is not under `src/`; spec §4.2's
error policy says the operation "degrades to an empty view". -/
def emptyBeanView : AttrMap := []

/-- Modelled from the spec: the attribute dictionary of a freshly constructed
`Humidity007Parser()` — `devices/hum_007.py` is not under `src/`; spec §4.2's
error policy says the operation "degrades to an empty view". -/
def emptyHumidityView : AttrMap := []

/-- The `base_parser.attributes` argument: either not a dictionary at all
(first guard of the filter) or an attribute dictionary. -/
inductive AttrsInput where
  | notDict : AttrsInput
  | dict (m : AttrMap) : AttrsInput
deriving Repr, DecidableEq

/-- `DeviceParserFactory.create_filtered_parser` (device_manager.py lines
19–104).  The result pairs the post-call state of the template dictionary
(first component — the source mutates the shared attribute objects in place)
with the attribute dictionary of the returned parser (second component).
A raised Python exception is `.error`.  The source's
`isinstance(property_keys, (list, set))` guard is vacuously true and is
omitted. -/
def createFilteredParser (attrs : AttrsInput) (props : List PropRec) :
    Except String (AttrsInput × AttrMap) :=
  match attrs with
  | .notDict => .ok (.notDict, emptyBeanView)
  | .dict m =>
    if (extractKeys props).any (fun k => !k.hashable) then
      .ok (.dict m, emptyBeanView)
    else
      match filterLoop props (extractKeys props) m [] with
      | .error e => .error e
      | .ok (tmpl, view) => .ok (.dict tmpl, injectFpc view)

/-- `DeviceParserFactory.create_humidity_parser` (device_manager.py lines
106–185): identical to `createFilteredParser` except that no
`f_power_consumption` attribute is force-added. -/
def createHumidityParser (attrs : AttrsInput) (props : List PropRec) :
    Except String (AttrsInput × AttrMap) :=
  match attrs with
  | .notDict => .ok (.notDict, emptyHumidityView)
  | .dict m =>
    if (extractKeys props).any (fun k => !k.hashable) then
      .ok (.dict m, emptyHumidityView)
    else
      match filterLoop props (extractKeys props) m [] with
      | .error e => .error e
      | .ok (tmpl, view) => .ok (.dict tmpl, view)

/-! ### Mode converter (`mode_converter.py`) -/

/-- `convert_mode_to_ha_string` (mode_converter.py lines 12–38): substring
classification of an HVAC-mode description, first match wins, testing a CJK
token on the raw text and an English token on the lowered text at each
priority level. -/
def convert_mode_to_ha_string (mode_description : String) : Option String :=
  let mode_lower := lowerStr mode_description
  if strContains mode_description "自动" || strContains mode_lower "auto" then
    some "auto"
  else if strContains mode_description "制冷" || strContains mode_lower "cool" then
    some "cool"
  else if strContains mode_description "制热" || strContains mode_lower "heat" then
    some "heat"
  else if strContains mode_description "除湿" || strContains mode_lower "dry" then
    some "dry"
  else if strContains mode_description "送风" || strContains mode_lower "fan" then
    some "fan_only"
  else if strContains mode_description "关" || strContains mode_lower "off" then
    some "off"
  else Option.none

/-- `convert_fan_mode_to_ha_string` (mode_converter.py lines 41–72): exact
equality against the CJK token and the lowered English token for
auto/low/medium/high, exact CJK or English *substring* for the ultra
variants, then substring tests for the compound medium variants. -/
def convert_fan_mode_to_ha_string (fan_description : String) : Option String :=
  let fan_lower := lowerStr fan_description
  if fan_description = "自动" || fan_lower = "auto" then some "auto"
  else if fan_description = "超低" || strContains fan_lower "ultra low" then
    some "ultra_low"
  else if fan_description = "低" || fan_lower = "low" then some "low"
  else if fan_description = "中" || fan_lower = "medium" || fan_lower = "med" then
    some "medium"
  else if fan_description = "高" || fan_lower = "high" then some "high"
  else if fan_description = "超高" || strContains fan_lower "ultra high" then
    some "ultra_high"
  else if strContains fan_lower "medium_low" || strContains fan_lower "medium low" then
    some "medium_low"
  else if strContains fan_lower "medium_high" || strContains fan_lower "medium high" then
    some "medium_high"
  else Option.none

/-- An ordered value map (Python `dict[str, str]`). -/
abbrev ValueMap := List (String × String)

/-- Python dictionary lookup on a `ValueMap`. -/
def lookupV : ValueMap → String → Option String
  | [], _ => Option.none
  | (k, v) :: rest, s => if k = s then some v else lookupV rest s

/-- The shared shape of the two reverse lookups
(`for key, value in value_map.items(): if normalize(value) == target:
return key; return None`), parameterised by the forward normalizer. -/
def findDeviceValue (normalize : String → Option String) :
    ValueMap → String → Option String
  | [], _ => Option.none
  | (k, v) :: rest, target =>
    if normalize v = some target then some k
    else findDeviceValue normalize rest target

/-- `find_device_value_for_ha_mode` (mode_converter.py lines 109–127). -/
def findDeviceValueForHaMode (value_map : ValueMap) (ha_mode_string : String) :
    Option String :=
  findDeviceValue convert_mode_to_ha_string value_map ha_mode_string

/-- `find_device_value_for_ha_fan_mode` (mode_converter.py lines 130–148). -/
def findDeviceValueForHaFanMode (value_map : ValueMap)
    (ha_fan_mode_string : String) : Option String :=
  findDeviceValue convert_fan_mode_to_ha_string value_map ha_fan_mode_string

/-- Modelled from the spec: the spec's own description of HVAC-mode
normalization ("substring match, first-match-wins, tested in a fixed
priority order: auto, cool, heat, dry, fan, off; matching is performed
against both an ideographic-script token list and an English substring
list"), written as a first-match scan over a token table, to be compared
with the source's `convert_mode_to_ha_string`. -/
def specFirstMatch (s : String) : List ((String × String) × String) → Option String
  | [] => Option.none
  | ((ideo, eng), target) :: rest =>
    if strContains s ideo || strContains (lowerStr s) eng then some target
    else specFirstMatch s rest

/-- The spec's HVAC priority table: auto, cool, heat, dry, fan, off, each
with its ideographic token and its English substring. -/
def specHvacTable : List ((String × String) × String) :=
  [(("自动", "auto"), "auto"), (("制冷", "cool"), "cool"),
   (("制热", "heat"), "heat"), (("除湿", "dry"), "dry"),
   (("送风", "fan"), "fan_only"), (("关", "off"), "off")]

/-- Modelled from the spec: first-match-wins HVAC classification over the
priority table. -/
def specHvacFirstMatch (s : String) : Option String :=
  specFirstMatch s specHvacTable

/-! ### Push channel (`websocket.py`) -/

/-- Outcome of one connection attempt as seen by
`_connect_ws`/`_schedule_reconnect` (websocket.py lines 71–152). -/
inductive WsEvent where
  | connectOk : WsEvent
  | connectFail : WsEvent
deriving Repr, DecidableEq

/-- The failure-counting state of `ConnectLifeWebSocket`: `_fail_count` and
whether the channel has given up (`_schedule_reconnect` returned after
exceeding `_max_fails`). -/
structure WsState where
  failCount : Nat
  stopped : Bool
deriving Repr, DecidableEq

/-- One step of the reconnect logic: on success `_connect_ws` resets
`_fail_count` to 0 (line 98); on failure `_schedule_reconnect` increments
the counter, stops permanently once it exceeds `_max_fails`, and otherwise
waits `min(30, 5 * 2 ** (fail_count - 1))` seconds (returned as the second
component) before retrying. -/
def wsStep (maxFails : Nat) (s : WsState) (e : WsEvent) : WsState × Option Nat :=
  match e with
  | .connectOk => ({ s with failCount := 0 }, Option.none)
  | .connectFail =>
    let f := s.failCount + 1
    if maxFails < f then ({ failCount := f, stopped := true }, Option.none)
    else ({ s with failCount := f }, some (min 30 (5 * 2 ^ (f - 1))))

/-- Runs `wsStep` over a list of events, collecting the backoff delay (or
`none`) produced at each step. -/
def wsRun (maxFails : Nat) (s : WsState) : List WsEvent → WsState × List (Option Nat)
  | [] => (s, [])
  | e :: rest =>
    let (s1, d) := wsStep maxFails s e
    let (s2, ds) := wsRun maxFails s1 rest
    (s2, d :: ds)

/-- The environment `async_connect` (websocket.py lines 154–172) runs in:
whether the token getter raises, whether `register_phone_device` accepts the
phone code, whether `get_notification_info` raises, and whether it returns a
(truthy) notification-info object. -/
structure HandshakeEnv where
  tokenRaises : Bool
  registerOk : Bool
  notifRaises : Bool
  notifInfoAvailable : Bool
deriving Repr, DecidableEq

/-- What `async_connect` does, as observable by its caller and by the rest
of the channel: whether an exception escapes to the caller, whether any
error value is returned to the caller (the function is annotated `-> None`
and every path ends in a bare `return`), whether `_schedule_reconnect` was
invoked, and whether the `_connect_ws` listen task was started. -/
structure ConnectOutcome where
  raisedToCaller : Bool
  errorReturnedToCaller : Bool
  reconnectScheduled : Bool
  listenTaskStarted : Bool
deriving Repr, DecidableEq

/-- `async_connect` (websocket.py lines 154–172): the handshake sequence.
Every failure path — a raised exception (swallowed by the blanket
`except Exception`), a rejected registration, or a missing notification
info — logs and returns `None`; only full success starts the `_connect_ws`
task.  No path raises, returns an error value, or schedules a reconnect. -/
def asyncConnect (env : HandshakeEnv) : ConnectOutcome :=
  if env.tokenRaises then
    { raisedToCaller := false, errorReturnedToCaller := false,
      reconnectScheduled := false, listenTaskStarted := false }
  else if !env.registerOk then
    { raisedToCaller := false, errorReturnedToCaller := false,
      reconnectScheduled := false, listenTaskStarted := false }
  else if env.notifRaises then
    { raisedToCaller := false, errorReturnedToCaller := false,
      reconnectScheduled := false, listenTaskStarted := false }
  else if !env.notifInfoAvailable then
    { raisedToCaller := false, errorReturnedToCaller := false,
      reconnectScheduled := false, listenTaskStarted := false }
  else
    { raisedToCaller := false, errorReturnedToCaller := false,
      reconnectScheduled := false, listenTaskStarted := true }

/-- `_handle_message` (websocket.py lines 127–134), parameterised by the
three decode stages (`base64.b64decode`, `bytes.decode("utf-8")`,
`json.loads`), each of which may fail; a failure at any stage is caught and
the message yields nothing. -/
def handleMessage {B J : Type} (b64decode : String → Option B)
    (utf8decode : B → Option String) (jsonLoads : String → Option J)
    (raw : String) : Option J :=
  match b64decode raw with
  | Option.none => Option.none
  | some bs =>
    match utf8decode bs with
    | Option.none => Option.none
    | some s => jsonLoads s

/-- The TEXT-message part of `_listen` (websocket.py lines 104–125) over a
finite stream of `(arrival time, raw payload)` frames: a frame arriving less
than 1 second after the previously accepted frame is skipped before any
decoding; otherwise the acceptance time is recorded (even if decoding then
fails) and `_handle_message` runs, its successful results being the
callback invocations, in order. -/
def listenLoop {B J : Type} (b64decode : String → Option B)
    (utf8decode : B → Option String) (jsonLoads : String → Option J) :
    ℚ → List (ℚ × String) → List J
  | _, [] => []
  | last, (now, raw) :: rest =>
    if now - last < 1 then listenLoop b64decode utf8decode jsonLoads last rest
    else
      match handleMessage b64decode utf8decode jsonLoads raw with
      | some d => d :: listenLoop b64decode utf8decode jsonLoads now rest
      | Option.none => listenLoop b64decode utf8decode jsonLoads now rest

/-! ### Concrete fixtures (schemas, property lists and states used to
evaluate the definitions at specific inputs) -/

/-- An Enum mode attribute with a two-entry value map, as the device-type
schema modules build them. -/
def modeAttr : DeviceAttribute :=
  { key := "f_mode", name := "Mode", attr_type := "Enum", read_write := "RW",
    value_map := [("0", "Auto"), ("1", "Cool")] }

/-- The mode attribute after the filter has run with allowed-value list
"0": value range attached, value map intersected. -/
def modeAttrMutated : DeviceAttribute :=
  { key := "f_mode", name := "Mode", attr_type := "Enum", read_write := "RW",
    value_range := PVal.str "0", value_map := [("0", "Auto")] }

/-- A one-attribute template schema holding `modeAttr`. -/
def modeSchema : AttrMap := [("f_mode", modeAttr)]

/-- A property record for `f_mode` carrying allowed-value list "0". -/
def propFmode0 : PropRec :=
  { propertyKey := PVal.str "f_mode", propertyValueList := PVal.str "0" }

/-- A property record for `f_mode` with no `propertyValueList`. -/
def propFmodeBare : PropRec := { propertyKey := PVal.str "f_mode" }

/-- A property record whose `propertyKey` is an (unhashable) Python list. -/
def propUnhashable : PropRec := { propertyKey := PVal.pylist [1] }

/-- A property record listing `f_power_consumption` with an allowed-value
token string. -/
def propFpc : PropRec :=
  { propertyKey := PVal.str "f_power_consumption",
    propertyValueList := PVal.str "1,2" }

/-- A plain Number attribute (no value map) under key `f_power_display`. -/
def fpdAttr : DeviceAttribute :=
  { key := "f_power_display", name := "Power Display", attr_type := "Number",
    step := some 1, read_write := "R" }

/-- A plain Number attribute under key `f_cool_qvalue`. -/
def fcqAttr : DeviceAttribute :=
  { key := "f_cool_qvalue", name := "Cool Q", attr_type := "Number",
    step := some 1, read_write := "R" }

/-- A plain Number attribute under an unrelated key. -/
def unrelatedAttr : DeviceAttribute :=
  { key := "t_unrelated", name := "Unrelated", attr_type := "Number",
    step := some 1, read_write := "RW" }

/-- The spec's scenario schema: `f_power_display`, `f_cool_qvalue` and an
unrelated key. -/
def scenarioSchema : AttrMap :=
  [("f_power_display", fpdAttr), ("f_cool_qvalue", fcqAttr),
   ("t_unrelated", unrelatedAttr)]

/-- The spec's scenario property list: only `f_power_display`. -/
def scenarioProps : List PropRec :=
  [{ propertyKey := PVal.str "f_power_display" }]

/-- The forced power-consumption attribute after a second filter pass
attaches the value range from `propFpc`. -/
def fpcWithRange : DeviceAttribute :=
  { key := "f_power_consumption", name := "Power Consumption",
    attr_type := "Number", step := some 1, read_write := "R",
    value_range := PVal.str "1,2" }

/-- The scenario view produced by filtering `scenarioSchema` against
`scenarioProps`. -/
def scenarioView : AttrMap :=
  [("f_power_display", fpdAttr), ("f_power_consumption", fpcDefault)]

/-- The view produced by filtering `modeSchema` against `[propFmode0]`. -/
def modeView : AttrMap :=
  [("f_mode", modeAttrMutated), ("f_power_consumption", fpcDefault)]

/-! ## Theorems -/

/-- C10: HVAC-mode normalization classifies a description by substring
match with first-match-wins in the fixed priority order auto, cool, heat,
dry, fan, off, testing for each target both an ideographic-script token and
an English substring of the lowered text; "制冷" and "Cool" both normalize
to cool, a description matching several targets yields the earliest one
("cool heat" → cool), and "Turbo" normalizes to unrecognized (`none`). -/
theorem c10_hvac_mode_first_match :
    (∀ s, convert_mode_to_ha_string s = specHvacFirstMatch s) ∧
    convert_mode_to_ha_string "制冷" = some "cool" ∧
    convert_mode_to_ha_string "Cool" = some "cool" ∧
    convert_mode_to_ha_string "cool heat" = some "cool" ∧
    convert_mode_to_ha_string "Turbo" = Option.none :=
  ⟨fun _ => rfl, by decide, by decide, by decide, by decide⟩

/-- C7 counterexample: "fan ultra low" is not the exact token "超低" nor the
exact lowered string "ultra low", yet it normalizes to `ultra_low` — the
ultra variants are matched by English *substring*, refuting the claim that
the short tokens for auto, ultra_low, low, medium, high and ultra_high are
matched only by exact equality of the whole description. -/
theorem c7_counterexample :
    convert_fan_mode_to_ha_string "fan ultra low" = some "ultra_low" ∧
    "fan ultra low" ≠ "超低" ∧ lowerStr "fan ultra low" ≠ "ultra low" := by
  decide

set_option maxHeartbeats 1600000 in
/-- C7 (amended): the short tokens for auto, low, medium and high are
matched only by exact equality of the whole description (case-insensitive
for English); the ultra_low/ultra_high variants are matched by the exact
ideographic token or by an English substring; "高" and "High" both
normalize to high, "medium high" normalizes to medium_high, and a
description that merely contains "high" as a proper substring (such as
"highest") does not normalize to high. -/
theorem c7_fan_mode_matching :
    (∀ s, convert_fan_mode_to_ha_string s = some "auto" →
        s = "自动" ∨ lowerStr s = "auto") ∧
    (∀ s, convert_fan_mode_to_ha_string s = some "low" →
        s = "低" ∨ lowerStr s = "low") ∧
    (∀ s, convert_fan_mode_to_ha_string s = some "medium" →
        s = "中" ∨ lowerStr s = "medium" ∨ lowerStr s = "med") ∧
    (∀ s, convert_fan_mode_to_ha_string s = some "high" →
        s = "高" ∨ lowerStr s = "high") ∧
    (∀ s, convert_fan_mode_to_ha_string s = some "ultra_low" →
        s = "超低" ∨ strContains (lowerStr s) "ultra low" = true) ∧
    (∀ s, convert_fan_mode_to_ha_string s = some "ultra_high" →
        s = "超高" ∨ strContains (lowerStr s) "ultra high" = true) ∧
    convert_fan_mode_to_ha_string "高" = some "high" ∧
    convert_fan_mode_to_ha_string "High" = some "high" ∧
    convert_fan_mode_to_ha_string "medium high" = some "medium_high" ∧
    convert_fan_mode_to_ha_string "highest" = Option.none := by
  refine ⟨?_, ?_, ?_, ?_, ?_, ?_, by decide, by decide, by decide, by decide⟩ <;>
  · intro s h
    simp only [convert_fan_mode_to_ha_string] at h
    split_ifs at h <;>
      first
        | exact Option.noConfusion h
        | exact absurd (Option.some.inj h) (by decide)
        | (simp only [Bool.or_eq_true, decide_eq_true_eq] at *; tauto)

/-- C7 witness: the amended exactness statement applied at the concrete
description "High". -/
theorem c7_witness : "High" = "高" ∨ lowerStr "High" = "high" :=
  c7_fan_mode_matching.2.2.2.1 "High" (by decide)

/-- C4: on the n-th consecutive failure (n within the retry ceiling) the
channel waits `min(30, 5 * 2^(n-1))` seconds before retrying; with the
default maximum of 3 failures, four consecutive transport errors produce
delays 5, 10, 20 and then a permanent stop with no further retry; a
successful connection resets the failure counter to zero. -/
theorem c4_backoff :
    (∀ (n maxFails : Nat) (s : WsState), 1 ≤ n → n ≤ maxFails →
        s.failCount = n - 1 →
        (wsStep maxFails s WsEvent.connectFail).2 =
          some (min 30 (5 * 2 ^ (n - 1)))) ∧
    wsRun 3 { failCount := 0, stopped := false }
        [WsEvent.connectFail, WsEvent.connectFail, WsEvent.connectFail,
         WsEvent.connectFail] =
      ({ failCount := 4, stopped := true },
       [some 5, some 10, some 20, Option.none]) ∧
    (∀ (maxFails : Nat) (s : WsState),
        (wsStep maxFails s WsEvent.connectOk).1.failCount = 0) := by
  refine ⟨?_, by decide, fun _ _ => rfl⟩
  intro n maxFails s h1 h2 h3
  have hlt : ¬ maxFails < s.failCount + 1 := by omega
  simp only [wsStep, if_neg hlt]
  simp [h3]

/-- C4 witness: the backoff formula applied at the second consecutive
failure with the default ceiling of 3. -/
theorem c4_witness :
    (wsStep 3 { failCount := 1, stopped := false } WsEvent.connectFail).2 =
      some (min 30 (5 * 2 ^ (2 - 1))) :=
  c4_backoff.1 2 3 { failCount := 1, stopped := false } (by decide) (by decide)
    (by decide)

/-- C3 counterexample: with the phone-code registration rejected,
`async_connect` neither raises to the caller nor returns an error value —
the failure is logged and swallowed, refuting the claim that the handshake
failure is surfaced to the caller. -/
theorem c3_counterexample :
    asyncConnect { tokenRaises := false, registerOk := false,
                   notifRaises := false, notifInfoAvailable := true } =
      { raisedToCaller := false, errorReturnedToCaller := false,
        reconnectScheduled := false, listenTaskStarted := false } := by
  decide

/-- C3 (amended): a handshake failure (registration rejected, or the
notification-info fetch raising or returning nothing) terminates the
channel without starting the listen task and without any automatic
reconnection attempt, but it is not surfaced to the caller — `async_connect`
never raises and never returns an error value on any input. -/
theorem c3_handshake_failure_closed_not_surfaced :
    (∀ env : HandshakeEnv,
        (asyncConnect env).raisedToCaller = false ∧
        (asyncConnect env).errorReturnedToCaller = false ∧
        (asyncConnect env).reconnectScheduled = false) ∧
    (∀ env : HandshakeEnv,
        env.registerOk = false ∨ env.notifRaises = true ∨
          env.notifInfoAvailable = false →
        (asyncConnect env).listenTaskStarted = false) := by
  constructor
  · intro env
    unfold asyncConnect
    split_ifs <;> exact ⟨rfl, rfl, rfl⟩
  · intro env h
    unfold asyncConnect
    split_ifs <;> first | rfl | simp_all

/-- C3 witness: the amended statement applied at an environment whose
notification-info fetch returns nothing. -/
theorem c3_witness :
    (asyncConnect { tokenRaises := false, registerOk := true,
                    notifRaises := false,
                    notifInfoAvailable := false }).listenTaskStarted = false :=
  c3_handshake_failure_closed_not_surfaced.2
    { tokenRaises := false, registerOk := true, notifRaises := false,
      notifInfoAvailable := false } (Or.inr (Or.inr rfl))

/-- C6: in the listening loop, a text message arriving less than 1 second
after the previously accepted message is dropped before any decoding (the
loop state and output are exactly those of the remaining stream); an
accepted message is base64-decoded, UTF-8-decoded, JSON-parsed and its
parse result handed to the callback; a failure at any of the three stages
makes `_handle_message` yield nothing, dropping only that message while the
loop continues on the rest of the stream. -/
theorem c6_listen_dedup_decode :
    (∀ (B J : Type) (b64 : String → Option B) (u : B → Option String)
        (j : String → Option J) (last now : ℚ) (raw : String)
        (rest : List (ℚ × String)),
      now - last < 1 →
      listenLoop b64 u j last ((now, raw) :: rest) =
        listenLoop b64 u j last rest) ∧
    (∀ (B J : Type) (b64 : String → Option B) (u : B → Option String)
        (j : String → Option J) (last now : ℚ) (raw : String)
        (rest : List (ℚ × String)) (bs : B) (s : String) (d : J),
      ¬ now - last < 1 → b64 raw = some bs → u bs = some s → j s = some d →
      listenLoop b64 u j last ((now, raw) :: rest) =
        d :: listenLoop b64 u j now rest) ∧
    (∀ (B J : Type) (b64 : String → Option B) (u : B → Option String)
        (j : String → Option J) (last now : ℚ) (raw : String)
        (rest : List (ℚ × String)),
      ¬ now - last < 1 → handleMessage b64 u j raw = Option.none →
      listenLoop b64 u j last ((now, raw) :: rest) =
        listenLoop b64 u j now rest) ∧
    (∀ (B J : Type) (b64 : String → Option B) (u : B → Option String)
        (j : String → Option J) (raw : String),
      b64 raw = Option.none → handleMessage b64 u j raw = Option.none) ∧
    (∀ (B J : Type) (b64 : String → Option B) (u : B → Option String)
        (j : String → Option J) (raw : String) (bs : B),
      b64 raw = some bs → u bs = Option.none →
      handleMessage b64 u j raw = Option.none) := by
  refine ⟨?_, ?_, ?_, ?_, ?_⟩
  · intro B J b64 u j last now raw rest hlt
    simp only [listenLoop, if_pos hlt]
  · intro B J b64 u j last now raw rest bs s d hge h1 h2 h3
    simp only [listenLoop, if_neg hge, handleMessage, h1, h2, h3]
  · intro B J b64 u j last now raw rest hge hm
    simp only [listenLoop, if_neg hge, hm]
  · intro B J b64 u j raw h1
    simp only [handleMessage, h1]
  · intro B J b64 u j raw bs h1 h2
    simp only [handleMessage, h1, h2]

/-- C6 witness: the de-duplication scenario — two accepted/identity-decoded
messages 0.5 s apart deliver only the first, 1.5 s apart deliver both. -/
theorem c6_witness :
    listenLoop (fun s => some s) (fun s => some s) (fun s => some s)
      0 [((100 : ℚ), "m1"), ((201 : ℚ) / 2, "m2")] = ["m1"] ∧
    listenLoop (fun s => some s) (fun s => some s) (fun s => some s)
      0 [((100 : ℚ), "m1"), ((203 : ℚ) / 2, "m2")] = ["m1", "m2"] := by
  constructor
  · rw [c6_listen_dedup_decode.2.1 String String _ _ _ 0 100 "m1"
        [((201 : ℚ) / 2, "m2")] "m1" "m1" "m1" (by norm_num) rfl rfl rfl]
    rw [c6_listen_dedup_decode.1 String String _ _ _ 100 ((201 : ℚ) / 2) "m2"
        [] (by norm_num)]
    rfl
  · rw [c6_listen_dedup_decode.2.1 String String _ _ _ 0 100 "m1"
        [((203 : ℚ) / 2, "m2")] "m1" "m1" "m1" (by norm_num) rfl rfl rfl]
    rw [c6_listen_dedup_decode.2.1 String String _ _ _ 100 ((203 : ℚ) / 2)
        "m2" [] "m2" "m2" "m2" (by norm_num) rfl rfl rfl]
    rfl

/-- The reverse lookup returns the first entry whose value normalizes to
the target, as a `List.find?`. -/
theorem findDeviceValue_eq_find (f : String → Option String) (vm : ValueMap)
    (t : String) :
    findDeviceValue f vm t =
      (vm.find? fun kv => decide (f kv.2 = some t)).map Prod.fst := by
  induction vm with
  | nil => rfl
  | cons kv rest ih =>
    by_cases h : f kv.2 = some t
    · rw [List.find?_cons_of_pos _ (by simp [h])]
      simp [findDeviceValue, h]
    · rw [List.find?_cons_of_neg _ (by simp [h])]
      simp only [findDeviceValue]
      rw [if_neg h]
      exact ih

/-- The reverse lookup returns `none` exactly when no entry of the map
normalizes to the target. -/
theorem findDeviceValue_eq_none_iff (f : String → Option String)
    (vm : ValueMap) (t : String) :
    findDeviceValue f vm t = Option.none ↔ ∀ kv ∈ vm, f kv.2 ≠ some t := by
  induction vm with
  | nil => simp [findDeviceValue]
  | cons kv rest ih =>
    simp only [findDeviceValue]
    by_cases h : f kv.2 = some t
    · rw [if_pos h]
      simp [h]
    · rw [if_neg h]
      rw [ih]
      constructor
      · intro hall kv2 hm
        rcases List.mem_cons.mp hm with heq | hm2
        · rw [heq]; exact h
        · exact hall kv2 hm2
      · intro hall kv2 hm
        exact hall kv2 (List.mem_cons_of_mem _ hm)

/-- A key returned by the reverse lookup belongs to the map and its paired
value normalizes to the target. -/
theorem findDeviceValue_some_mem (f : String → Option String) (vm : ValueMap)
    (t k : String) (h : findDeviceValue f vm t = some k) :
    ∃ v, (k, v) ∈ vm ∧ f v = some t := by
  induction vm with
  | nil => exact absurd h (by simp [findDeviceValue])
  | cons kv rest ih =>
    cases kv with
    | mk k1 v1 =>
      simp only [findDeviceValue] at h
      by_cases hc : f v1 = some t
      · rw [if_pos hc] at h
        have hk : k1 = k := Option.some.inj h
        subst hk
        exact ⟨v1, List.mem_cons_self _ _, hc⟩
      · rw [if_neg hc] at h
        obtain ⟨v, hm, hv⟩ := ih h
        exact ⟨v, List.mem_cons_of_mem _ hm, hv⟩

/-- With distinct keys (as in a Python dict), the key returned by the
reverse lookup looks up to a value normalizing to the target. -/
theorem findDeviceValue_some_lookup (f : String → Option String)
    (vm : ValueMap) (t k : String) (hnd : (vm.map Prod.fst).Nodup)
    (h : findDeviceValue f vm t = some k) :
    ∃ v, lookupV vm k = some v ∧ f v = some t := by
  induction vm with
  | nil => exact absurd h (by simp [findDeviceValue])
  | cons kv rest ih =>
    cases kv with
    | mk k1 v1 =>
      simp only [findDeviceValue] at h
      by_cases hc : f v1 = some t
      · rw [if_pos hc] at h
        have hk : k1 = k := Option.some.inj h
        refine ⟨v1, ?_, hc⟩
        simp only [lookupV]
        rw [if_pos hk]
      · rw [if_neg hc] at h
        have hnd2 : (rest.map Prod.fst).Nodup := (List.nodup_cons.mp hnd).2
        obtain ⟨v, hl, hv⟩ := ih hnd2 h
        refine ⟨v, ?_, hv⟩
        have hkm : k ∈ rest.map Prod.fst := by
          obtain ⟨v2, hm2, _⟩ := findDeviceValue_some_mem f rest t k h
          exact List.mem_map.mpr ⟨(k, v2), hm2, rfl⟩
        have hne : k1 ≠ k := by
          intro he
          exact (List.nodup_cons.mp hnd).1 (he ▸ hkm)
        simp only [lookupV]
        rw [if_neg hne]
        exact hl

/-- C8: reverse mode lookup is a partial inverse of forward normalization:
for both the HVAC and the fan reverse lookups, if some entry of the value
map normalizes to the target mode then the lookup returns the first such
key in iteration order, whose mapped value (under distinct keys, as in a
Python dict) normalizes to the target; and the lookup returns `none`
exactly when no entry of the map normalizes to the target. -/
theorem c8_reverse_lookup :
    (∀ (vm : ValueMap) (m : String),
      findDeviceValueForHaMode vm m =
        (vm.find? fun kv =>
          decide (convert_mode_to_ha_string kv.2 = some m)).map Prod.fst) ∧
    (∀ (vm : ValueMap) (m : String),
      findDeviceValueForHaMode vm m = Option.none ↔
        ∀ kv ∈ vm, convert_mode_to_ha_string kv.2 ≠ some m) ∧
    (∀ (vm : ValueMap) (m k : String), (vm.map Prod.fst).Nodup →
      findDeviceValueForHaMode vm m = some k →
      ∃ v, lookupV vm k = some v ∧ convert_mode_to_ha_string v = some m) ∧
    (∀ (vm : ValueMap) (m : String),
      (∃ kv ∈ vm, convert_mode_to_ha_string kv.2 = some m) →
      ∃ k, findDeviceValueForHaMode vm m = some k) ∧
    (∀ (vm : ValueMap) (m : String),
      findDeviceValueForHaFanMode vm m =
        (vm.find? fun kv =>
          decide (convert_fan_mode_to_ha_string kv.2 = some m)).map Prod.fst) ∧
    (∀ (vm : ValueMap) (m : String),
      findDeviceValueForHaFanMode vm m = Option.none ↔
        ∀ kv ∈ vm, convert_fan_mode_to_ha_string kv.2 ≠ some m) ∧
    (∀ (vm : ValueMap) (m k : String), (vm.map Prod.fst).Nodup →
      findDeviceValueForHaFanMode vm m = some k →
      ∃ v, lookupV vm k = some v ∧ convert_fan_mode_to_ha_string v = some m) ∧
    (∀ (vm : ValueMap) (m : String),
      (∃ kv ∈ vm, convert_fan_mode_to_ha_string kv.2 = some m) →
      ∃ k, findDeviceValueForHaFanMode vm m = some k) := by
  have hex : ∀ (f : String → Option String) (vm : ValueMap) (m : String),
      (∃ kv ∈ vm, f kv.2 = some m) → ∃ k, findDeviceValue f vm m = some k := by
    intro f vm m hkv
    cases hf : findDeviceValue f vm m with
    | some k => exact ⟨k, rfl⟩
    | none =>
      obtain ⟨kv, hm, hv⟩ := hkv
      exact absurd hv ((findDeviceValue_eq_none_iff f vm m).mp hf kv hm)
  exact ⟨fun vm m => findDeviceValue_eq_find _ vm m,
    fun vm m => findDeviceValue_eq_none_iff _ vm m,
    fun vm m k hnd h => findDeviceValue_some_lookup _ vm m k hnd h,
    fun vm m h => hex _ vm m h,
    fun vm m => findDeviceValue_eq_find _ vm m,
    fun vm m => findDeviceValue_eq_none_iff _ vm m,
    fun vm m k hnd h => findDeviceValue_some_lookup _ vm m k hnd h,
    fun vm m h => hex _ vm m h⟩

/-- C8 witness: the distinct-keys lookup statement applied to a concrete
two-entry value map and target mode cool. -/
theorem c8_witness :
    ∃ v, lookupV [("0", "Auto"), ("1", "Cool")] "1" = some v ∧
      convert_mode_to_ha_string v = some "cool" :=
  c8_reverse_lookup.2.2.1 [("0", "Auto"), ("1", "Cool")] "cool" "1"
    (by decide) (by decide)

/-- C2 (code bug): the claim that the capability filter never raises is the
spec's stated error policy, and the two malformed-input guards do degrade
to an empty view (conjuncts 2 and 3); but a retained attribute with a
non-empty value map whose matching property record carries no
allowed-value-token string makes the source call `split` on `None` — the
embedded filter reaches the `AttributeError` branch instead of retaining
the attribute (conjunct 1). -/
theorem c2_filter_raises_on_missing_token :
    createFilteredParser (.dict modeSchema) [propFmodeBare] =
      .error "AttributeError: split called on non-string" ∧
    createFilteredParser .notDict [propFmode0] = .ok (.notDict, emptyBeanView) ∧
    createFilteredParser (.dict modeSchema) [propUnhashable] =
      .ok (.dict modeSchema, emptyBeanView) := by
  decide

/-- Filtering a list twice by the same predicate equals filtering once. -/
theorem filterTwice {α : Type} (p : α → Bool) (l : List α) :
    (l.filter p).filter p = l.filter p := by
  induction l with
  | nil => rfl
  | cons x xs ih => by_cases h : p x = true <;> simp [List.filter_cons, h, ih]

/-- Looking up the key just inserted returns the inserted value. -/
theorem lookupA_insertA_self (m : AttrMap) (s : String) (b : DeviceAttribute) :
    lookupA (insertA m s b) s = some b := by
  induction m with
  | nil => simp [insertA, lookupA]
  | cons kv rest ih =>
    cases kv with
    | mk k v =>
      simp only [insertA]
      by_cases h : k = s
      · rw [if_pos h]
        simp [lookupA]
      · rw [if_neg h]
        simp only [lookupA]
        rw [if_neg h]
        exact ih

/-- Inserting under one key does not change lookups of other keys. -/
theorem lookupA_insertA_ne (m : AttrMap) (s : String) (b : DeviceAttribute)
    (s' : String) (h : s' ≠ s) :
    lookupA (insertA m s b) s' = lookupA m s' := by
  induction m with
  | nil =>
    simp only [insertA, lookupA]
    rw [if_neg (fun he => h he.symm)]
  | cons kv rest ih =>
    cases kv with
    | mk k v =>
      simp only [insertA]
      by_cases hk : k = s
      · rw [if_pos hk]
        simp only [lookupA]
        rw [if_neg (fun he => h he.symm), if_neg (fun he => h (hk ▸ he).symm)]
      · rw [if_neg hk]
        simp only [lookupA]
        by_cases hk2 : k = s'
        · rw [if_pos hk2, if_pos hk2]
        · rw [if_neg hk2, if_neg hk2]
          exact ih

/-- `PVal.pyEq` against a string value coincides with equality. -/
theorem pyEq_str_iff (a : PVal) (s : String) :
    a.pyEq (PVal.str s) = true ↔ a = PVal.str s := by
  cases a <;> simp [PVal.pyEq]

/-- If the scan broke (assigned the value range), some record of the list
matches the key and carries that truthy value list. -/
theorem scanProps_break_sound (props : List PropRec) (key : PVal) :
    ∀ (cur : Option PVal) (pvl : PVal),
      scanProps props key cur = .ok (pvl, true) →
      ∃ p ∈ props, (p.keyGet).pyEq key = true ∧
        p.propertyValueList = pvl ∧ pvl.truthy = true := by
  induction props with
  | nil =>
    intro cur pvl h
    cases cur with
    | none => exact Except.noConfusion h
    | some c =>
      have hpair := Except.ok.inj h
      injection hpair with h1 h2
      exact Bool.noConfusion h2
  | cons p rest ih =>
    intro cur pvl h
    simp only [scanProps] at h
    by_cases hd : (!p.isDict) = true
    · rw [if_pos hd] at h
      exact Except.noConfusion h
    · rw [if_neg hd] at h
      by_cases hpk : (p.keyGet).pyEq key = true
      · rw [if_pos hpk] at h
        by_cases ht : (p.propertyValueList).truthy = true
        · rw [if_pos ht] at h
          have hpair := Except.ok.inj h
          injection hpair with h1 h2
          exact ⟨p, List.mem_cons_self _ _, hpk, h1, h1 ▸ ht⟩
        · rw [if_neg ht] at h
          obtain ⟨q, hm, hq1, hq2, hq3⟩ := ih _ _ h
          exact ⟨q, List.mem_cons_of_mem _ hm, hq1, hq2, hq3⟩
      · rw [if_neg hpk] at h
        obtain ⟨q, hm, hq1, hq2, hq3⟩ := ih _ _ h
        exact ⟨q, List.mem_cons_of_mem _ hm, hq1, hq2, hq3⟩

/-- Unfolding `processAttr` on a failed scan. -/
theorem processAttr_eq_err (props : List PropRec) (key : PVal) (e : String)
    (a : DeviceAttribute)
    (hscan : scanProps props key Option.none = .error e) :
    processAttr props key a = .error e := by
  unfold processAttr
  rw [hscan]

/-- Unfolding `processAttr` on a successful scan. -/
theorem processAttr_eq_ok (props : List PropRec) (key : PVal) (pvl : PVal)
    (assigned : Bool) (a : DeviceAttribute)
    (hscan : scanProps props key Option.none = .ok (pvl, assigned)) :
    processAttr props key a = applyVmFilter pvl (applyRange assigned pvl a) := by
  unfold processAttr
  rw [hscan]

/-- The value-map filter step does not change the value range. -/
theorem applyVmFilter_range (pvl : PVal) (a1 b : DeviceAttribute)
    (h : applyVmFilter pvl a1 = .ok b) : b.value_range = a1.value_range := by
  unfold applyVmFilter at h
  by_cases hvm : a1.value_map = []
  · rw [if_pos hvm] at h
    rw [← Except.ok.inj h]
  · rw [if_neg hvm] at h
    cases pvl with
    | str s => rw [← Except.ok.inj h]
    | none => exact Except.noConfusion h
    | int n => exact Except.noConfusion h
    | pylist xs => exact Except.noConfusion h

/-- Updating the value range to its current value is the identity. -/
theorem update_range_self (b : DeviceAttribute) (pvl : PVal)
    (h : b.value_range = pvl) : { b with value_range := pvl } = b := by
  cases b
  simp only at h
  rw [← h]

/-- The value-map filter step is idempotent on its successful results. -/
theorem applyVmFilter_ok_idem (pvl : PVal) (a1 b : DeviceAttribute)
    (h : applyVmFilter pvl a1 = .ok b) : applyVmFilter pvl b = .ok b := by
  unfold applyVmFilter at h ⊢
  by_cases hvm : a1.value_map = []
  · rw [if_pos hvm] at h
    have hb := Except.ok.inj h
    subst hb
    rw [if_pos hvm]
  · rw [if_neg hvm] at h
    cases pvl with
    | str s =>
      have hb := Except.ok.inj h
      subst hb
      by_cases hvm2 :
          (a1.value_map.filter fun kv => (pySplitComma s).contains kv.1) = []
      · rw [if_pos hvm2]
      · rw [if_neg hvm2]
        simp only [filterTwice]
    | none => exact Except.noConfusion h
    | int n => exact Except.noConfusion h
    | pylist xs => exact Except.noConfusion h

/-- Processing an attribute a second time with the same property list
leaves it unchanged: the range is re-assigned to the same value and the
value map is re-intersected with the same key set. -/
theorem processAttr_idem (props : List PropRec) (key : PVal)
    (a b : DeviceAttribute) (h : processAttr props key a = .ok b) :
    processAttr props key b = .ok b := by
  cases hscan : scanProps props key Option.none with
  | error e =>
    rw [processAttr_eq_err props key e a hscan] at h
    exact Except.noConfusion h
  | ok pa =>
    obtain ⟨pvl, assigned⟩ := pa
    rw [processAttr_eq_ok props key pvl assigned a hscan] at h
    rw [processAttr_eq_ok props key pvl assigned b hscan]
    have hr : applyRange assigned pvl b = b := by
      cases assigned with
      | false => rfl
      | true =>
        apply update_range_self
        rw [applyVmFilter_range pvl _ b h]
        rfl
    rw [hr]
    exact applyVmFilter_ok_idem pvl _ b h

/-- The empty filter loop returns its accumulators. -/
theorem filterLoop_nil (props : List PropRec) (tmpl view : AttrMap) :
    filterLoop props [] tmpl view = .ok (tmpl, view) := rfl

/-- A non-string key is skipped by the loop. -/
theorem filterLoop_cons_skip (props : List PropRec) (k : PVal)
    (rest : List PVal) (tmpl view : AttrMap) (hk : ∀ t, k ≠ PVal.str t) :
    filterLoop props (k :: rest) tmpl view = filterLoop props rest tmpl view := by
  cases k with
  | str t => exact absurd rfl (hk t)
  | none => rfl
  | int n => rfl
  | pylist xs => rfl

/-- A listed key absent from the template dictionary is skipped. -/
theorem filterLoop_cons_miss (props : List PropRec) (t : String)
    (rest : List PVal) (tmpl view : AttrMap)
    (hl : lookupA tmpl t = Option.none) :
    filterLoop props (PVal.str t :: rest) tmpl view =
      filterLoop props rest tmpl view := by
  simp only [filterLoop]
  rw [hl]

/-- A retained key whose processing succeeds writes the processed attribute
into both dictionaries and continues. -/
theorem filterLoop_cons_hit (props : List PropRec) (t : String)
    (rest : List PVal) (tmpl view : AttrMap) (a b : DeviceAttribute)
    (hl : lookupA tmpl t = some a)
    (hp : processAttr props (PVal.str t) a = .ok b) :
    filterLoop props (PVal.str t :: rest) tmpl view =
      filterLoop props rest (insertA tmpl t b) (insertA view t b) := by
  simp only [filterLoop]
  rw [hl]
  dsimp only
  rw [hp]

/-- A retained key whose processing raises propagates the exception. -/
theorem filterLoop_cons_err (props : List PropRec) (t : String)
    (rest : List PVal) (tmpl view : AttrMap) (a : DeviceAttribute) (e : String)
    (hl : lookupA tmpl t = some a)
    (hp : processAttr props (PVal.str t) a = .error e) :
    filterLoop props (PVal.str t :: rest) tmpl view = .error e := by
  simp only [filterLoop]
  rw [hl]
  dsimp only
  rw [hp]

/-- Keys that are not retained (not listed, or absent from the template)
are untouched by the filter loop: their template entries and their view
entries are unchanged. -/
theorem filterLoop_untouched (props : List PropRec) :
    ∀ (ks : List PVal) (tmpl view tmpl' view' : AttrMap),
      filterLoop props ks tmpl view = .ok (tmpl', view') →
      ∀ s : String, (PVal.str s ∉ ks ∨ lookupA tmpl s = Option.none) →
        lookupA tmpl' s = lookupA tmpl s ∧ lookupA view' s = lookupA view s := by
  intro ks
  induction ks with
  | nil =>
    intro tmpl view tmpl' view' h s _
    rw [filterLoop_nil] at h
    have hpair := Except.ok.inj h
    injection hpair with h1 h2
    subst h1
    subst h2
    exact ⟨rfl, rfl⟩
  | cons k rest ih =>
    intro tmpl view tmpl' view' h s hs
    have hs2 : PVal.str s ∉ rest ∨ lookupA tmpl s = Option.none := by
      rcases hs with hs | hs
      · exact Or.inl (fun hm => hs (List.mem_cons_of_mem _ hm))
      · exact Or.inr hs
    cases k with
    | str t =>
      cases hl : lookupA tmpl t with
      | none =>
        rw [filterLoop_cons_miss props t rest tmpl view hl] at h
        exact ih _ _ _ _ h s hs2
      | some a =>
        cases hp : processAttr props (PVal.str t) a with
        | error e =>
          rw [filterLoop_cons_err props t rest tmpl view a e hl hp] at h
          exact Except.noConfusion h
        | ok b =>
          rw [filterLoop_cons_hit props t rest tmpl view a b hl hp] at h
          have hne : s ≠ t := by
            rcases hs with hs | hs
            · intro he
              subst he
              exact hs (List.mem_cons_self _ _)
            · intro he
              subst he
              rw [hl] at hs
              exact Option.noConfusion hs
          have hs3 : PVal.str s ∉ rest ∨
              lookupA (insertA tmpl t b) s = Option.none := by
            rcases hs2 with hs2 | hs2
            · exact Or.inl hs2
            · rw [lookupA_insertA_ne tmpl t b s hne]
              exact Or.inr hs2
          obtain ⟨h1, h2⟩ := ih _ _ _ _ h s hs3
          rw [lookupA_insertA_ne tmpl t b s hne] at h1
          rw [lookupA_insertA_ne view t b s hne] at h2
          exact ⟨h1, h2⟩
    | none =>
      rw [filterLoop_cons_skip props _ rest tmpl view (fun t h => PVal.noConfusion h)] at h
      exact ih _ _ _ _ h s hs2
    | int n =>
      rw [filterLoop_cons_skip props _ rest tmpl view (fun t h => PVal.noConfusion h)] at h
      exact ih _ _ _ _ h s hs2
    | pylist xs =>
      rw [filterLoop_cons_skip props _ rest tmpl view (fun t h => PVal.noConfusion h)] at h
      exact ih _ _ _ _ h s hs2

/-- Retained keys (listed and present in the template) hold the processed
attribute in both the post-loop template and the view — the two share the
mutated state. -/
theorem filterLoop_retained (props : List PropRec) :
    ∀ (ks : List PVal) (tmpl view tmpl' view' : AttrMap),
      filterLoop props ks tmpl view = .ok (tmpl', view') →
      ∀ (s : String) (a : DeviceAttribute),
        PVal.str s ∈ ks → lookupA tmpl s = some a →
        ∃ b, processAttr props (PVal.str s) a = .ok b ∧
          lookupA tmpl' s = some b ∧ lookupA view' s = some b := by
  intro ks
  induction ks with
  | nil =>
    intro tmpl view tmpl' view' _ s a hm _
    exact absurd hm (List.not_mem_nil _)
  | cons k rest ih =>
    intro tmpl view tmpl' view' h s a hm hl
    by_cases hk : k = PVal.str s
    · subst hk
      cases hp : processAttr props (PVal.str s) a with
      | error e =>
        rw [filterLoop_cons_err props s rest tmpl view a e hl hp] at h
        exact Except.noConfusion h
      | ok b =>
        rw [filterLoop_cons_hit props s rest tmpl view a b hl hp] at h
        refine ⟨b, rfl, ?_⟩
        by_cases hm2 : PVal.str s ∈ rest
        · obtain ⟨b2, hp2, h1, h2⟩ :=
            ih _ _ _ _ h s b hm2 (lookupA_insertA_self tmpl s b)
          have hbb := processAttr_idem props (PVal.str s) a b hp
          have hb2 : b2 = b := Except.ok.inj (hbb.symm.trans hp2).symm
          subst hb2
          exact ⟨h1, h2⟩
        · obtain ⟨h1, h2⟩ := filterLoop_untouched props rest _ _ _ _ h s
            (Or.inl hm2)
          rw [lookupA_insertA_self tmpl s b] at h1
          rw [lookupA_insertA_self view s b] at h2
          exact ⟨h1, h2⟩
    · have hm2 : PVal.str s ∈ rest := by
        rcases List.mem_cons.mp hm with he | hm2
        · exact absurd he.symm hk
        · exact hm2
      cases k with
      | str t =>
        have hne : s ≠ t := by
          intro he
          exact hk (by rw [he])
        cases hl2 : lookupA tmpl t with
        | none =>
          rw [filterLoop_cons_miss props t rest tmpl view hl2] at h
          exact ih _ _ _ _ h s a hm2 hl
        | some a2 =>
          cases hp2 : processAttr props (PVal.str t) a2 with
          | error e =>
            rw [filterLoop_cons_err props t rest tmpl view a2 e hl2 hp2] at h
            exact Except.noConfusion h
          | ok b2 =>
            rw [filterLoop_cons_hit props t rest tmpl view a2 b2 hl2 hp2] at h
            have hl3 : lookupA (insertA tmpl t b2) s = some a := by
              rw [lookupA_insertA_ne tmpl t b2 s hne]
              exact hl
            exact ih _ _ _ _ h s a hm2 hl3
      | none =>
        rw [filterLoop_cons_skip props _ rest tmpl view (fun t h => PVal.noConfusion h)] at h
        exact ih _ _ _ _ h s a hm2 hl
      | int n =>
        rw [filterLoop_cons_skip props _ rest tmpl view (fun t h => PVal.noConfusion h)] at h
        exact ih _ _ _ _ h s a hm2 hl
      | pylist xs =>
        rw [filterLoop_cons_skip props _ rest tmpl view (fun t h => PVal.noConfusion h)] at h
        exact ih _ _ _ _ h s a hm2 hl

/-- Lookups of keys other than `f_power_consumption` see through the forced
injection. -/
theorem lookupA_injectFpc_ne (w : AttrMap) (s : String)
    (h : s ≠ "f_power_consumption") :
    lookupA (injectFpc w) s = lookupA w s := by
  unfold injectFpc
  by_cases hw : lookupA w "f_power_consumption" = Option.none
  · rw [if_pos hw]
    exact lookupA_insertA_ne w _ _ s h
  · rw [if_neg hw]

/-- When `f_power_consumption` is absent the injection adds the default
attribute. -/
theorem lookupA_injectFpc_none (w : AttrMap)
    (h : lookupA w "f_power_consumption" = Option.none) :
    lookupA (injectFpc w) "f_power_consumption" = some fpcDefault := by
  unfold injectFpc
  rw [if_pos h]
  exact lookupA_insertA_self w _ _

/-- When `f_power_consumption` is present the injection is a no-op on it. -/
theorem lookupA_injectFpc_some (w : AttrMap) (b : DeviceAttribute)
    (h : lookupA w "f_power_consumption" = some b) :
    lookupA (injectFpc w) "f_power_consumption" = some b := by
  unfold injectFpc
  rw [if_neg (by rw [h]; exact fun hc => Option.noConfusion hc)]
  exact h

/-- The bean-class filter when the hashability guard fires. -/
theorem createFilteredParser_guard (m : AttrMap) (props : List PropRec)
    (hg : ((extractKeys props).any fun k => !k.hashable) = true) :
    createFilteredParser (.dict m) props = .ok (.dict m, emptyBeanView) := by
  unfold createFilteredParser
  dsimp only
  rw [if_pos hg]

/-- The bean-class filter when the guard passes and the loop succeeds. -/
theorem createFilteredParser_core (m : AttrMap) (props : List PropRec)
    (tm w : AttrMap)
    (hg : ((extractKeys props).any fun k => !k.hashable) = false)
    (hf : filterLoop props (extractKeys props) m [] = .ok (tm, w)) :
    createFilteredParser (.dict m) props = .ok (.dict tm, injectFpc w) := by
  unfold createFilteredParser
  dsimp only
  rw [if_neg (by rw [hg]; exact fun hc => Bool.noConfusion hc)]
  rw [hf]

/-- The bean-class filter when the guard passes and the loop raises. -/
theorem createFilteredParser_err (m : AttrMap) (props : List PropRec)
    (e : String)
    (hg : ((extractKeys props).any fun k => !k.hashable) = false)
    (hf : filterLoop props (extractKeys props) m [] = .error e) :
    createFilteredParser (.dict m) props = .error e := by
  unfold createFilteredParser
  dsimp only
  rw [if_neg (by rw [hg]; exact fun hc => Bool.noConfusion hc)]
  rw [hf]

/-- The humidity-class filter when the hashability guard fires. -/
theorem createHumidityParser_guard (m : AttrMap) (props : List PropRec)
    (hg : ((extractKeys props).any fun k => !k.hashable) = true) :
    createHumidityParser (.dict m) props = .ok (.dict m, emptyHumidityView) := by
  unfold createHumidityParser
  dsimp only
  rw [if_pos hg]

/-- The humidity-class filter when the guard passes and the loop succeeds. -/
theorem createHumidityParser_core (m : AttrMap) (props : List PropRec)
    (tm w : AttrMap)
    (hg : ((extractKeys props).any fun k => !k.hashable) = false)
    (hf : filterLoop props (extractKeys props) m [] = .ok (tm, w)) :
    createHumidityParser (.dict m) props = .ok (.dict tm, w) := by
  unfold createHumidityParser
  dsimp only
  rw [if_neg (by rw [hg]; exact fun hc => Bool.noConfusion hc)]
  rw [hf]

/-- Case analysis on a successful `createFilteredParser` call: either the
hashability guard fired (template untouched, empty view), or the filter
loop ran and the view received the forced injection. -/
theorem createFilteredParser_ok_cases (m : AttrMap) (props : List PropRec)
    (t : AttrsInput) (v : AttrMap)
    (h : createFilteredParser (.dict m) props = .ok (t, v)) :
    (((extractKeys props).any fun k => !k.hashable) = true ∧
      t = .dict m ∧ v = emptyBeanView) ∨
    (((extractKeys props).any fun k => !k.hashable) = false ∧
      ∃ tm w, filterLoop props (extractKeys props) m [] = .ok (tm, w) ∧
        t = .dict tm ∧ v = injectFpc w) := by
  by_cases hg : ((extractKeys props).any fun k => !k.hashable) = true
  · rw [createFilteredParser_guard m props hg] at h
    have hpair := Except.ok.inj h
    injection hpair with h1 h2
    exact Or.inl ⟨hg, h1.symm, h2.symm⟩
  · have hg2 : ((extractKeys props).any fun k => !k.hashable) = false := by
      revert hg
      cases (extractKeys props).any fun k => !k.hashable
      · intro _
        rfl
      · intro hg
        exact absurd rfl hg
    cases hf : filterLoop props (extractKeys props) m [] with
    | error e =>
      rw [createFilteredParser_err m props e hg2 hf] at h
      exact Except.noConfusion h
    | ok p =>
      obtain ⟨tm, w⟩ := p
      rw [createFilteredParser_core m props tm w hg2 hf] at h
      have hpair := Except.ok.inj h
      injection hpair with h1 h2
      exact Or.inr ⟨hg2, tm, w, rfl, h1.symm, h2.symm⟩

/-- Case analysis on a successful `createHumidityParser` call: as for the
bean-class filter but with no forced injection. -/
theorem createHumidityParser_ok_cases (m : AttrMap) (props : List PropRec)
    (t : AttrsInput) (v : AttrMap)
    (h : createHumidityParser (.dict m) props = .ok (t, v)) :
    (((extractKeys props).any fun k => !k.hashable) = true ∧
      t = .dict m ∧ v = emptyHumidityView) ∨
    (((extractKeys props).any fun k => !k.hashable) = false ∧
      ∃ tm w, filterLoop props (extractKeys props) m [] = .ok (tm, w) ∧
        t = .dict tm ∧ v = w) := by
  by_cases hg : ((extractKeys props).any fun k => !k.hashable) = true
  · rw [createHumidityParser_guard m props hg] at h
    have hpair := Except.ok.inj h
    injection hpair with h1 h2
    exact Or.inl ⟨hg, h1.symm, h2.symm⟩
  · have hg2 : ((extractKeys props).any fun k => !k.hashable) = false := by
      revert hg
      cases (extractKeys props).any fun k => !k.hashable
      · intro _
        rfl
      · intro hg
        exact absurd rfl hg
    cases hf : filterLoop props (extractKeys props) m [] with
    | error e =>
      rw [show createHumidityParser (.dict m) props = .error e from by
        unfold createHumidityParser
        dsimp only
        rw [if_neg (by rw [hg2]; exact fun hc => Bool.noConfusion hc)]
        rw [hf]] at h
      exact Except.noConfusion h
    | ok p =>
      obtain ⟨tm, w⟩ := p
      rw [createHumidityParser_core m props tm w hg2 hf] at h
      have hpair := Except.ok.inj h
      injection hpair with h1 h2
      exact Or.inr ⟨hg2, tm, w, rfl, h1.symm, h2.symm⟩

/-- A key has an entry in the loop's view exactly when it is listed in the
extracted property keys and present in the template. -/
theorem filterLoop_view_isSome (props : List PropRec) (m tm w : AttrMap)
    (hf : filterLoop props (extractKeys props) m [] = .ok (tm, w))
    (s : String) :
    (lookupA w s).isSome = true ↔
      PVal.str s ∈ extractKeys props ∧ (lookupA m s).isSome = true := by
  constructor
  · intro hsome
    by_cases hm1 : PVal.str s ∈ extractKeys props
    · refine ⟨hm1, ?_⟩
      cases hml : lookupA m s with
      | some a => rfl
      | none =>
        have hw := (filterLoop_untouched props _ m [] tm w hf s (Or.inr hml)).2
        rw [hw] at hsome
        exact Bool.noConfusion hsome
    · have hw := (filterLoop_untouched props _ m [] tm w hf s (Or.inl hm1)).2
      rw [hw] at hsome
      exact Bool.noConfusion hsome
  · rintro ⟨hm1, hsome1⟩
    cases hml : lookupA m s with
    | none =>
      rw [hml] at hsome1
      exact Bool.noConfusion hsome1
    | some a =>
      obtain ⟨b, _, _, h2⟩ := filterLoop_retained props _ m [] tm w hf s a hm1 hml
      rw [h2]
      rfl

/-- C1 counterexample: filtering `modeSchema` against a property list whose
record carries a value token mutates the template in place — after the call
the template's `f_mode` attribute has gained a value range and lost a value
map entry, so the input parser's attributes mapping is not unchanged. -/
theorem c1_counterexample :
    createFilteredParser (.dict modeSchema) [propFmode0] =
      .ok (.dict [("f_mode", modeAttrMutated)], modeView) ∧
    ([("f_mode", modeAttrMutated)] : AttrMap) ≠ modeSchema ∧
    lookupA [("f_mode", modeAttrMutated)] "f_mode" ≠
      lookupA modeSchema "f_mode" := by
  decide

/-- C1 (amended): capability filtering leaves the template's attributes of
non-retained keys unchanged, but each retained attribute is mutated in
place (its value range and value map are updated by `processAttr`) and the
returned view holds exactly that mutated attribute state, shared with the
template rather than copied. -/
theorem c1_filter_mutation_frame (m : AttrMap) (props : List PropRec)
    (tm v : AttrMap)
    (hok : createFilteredParser (.dict m) props = .ok (.dict tm, v)) :
    (∀ s : String,
      PVal.str s ∉ extractKeys props ∨ lookupA m s = Option.none →
      lookupA tm s = lookupA m s) ∧
    (∀ (s : String) (a : DeviceAttribute),
      ((extractKeys props).any fun k => !k.hashable) = false →
      PVal.str s ∈ extractKeys props → lookupA m s = some a →
      ∃ b, processAttr props (PVal.str s) a = .ok b ∧
        lookupA tm s = some b ∧ lookupA v s = some b) := by
  rcases createFilteredParser_ok_cases m props (.dict tm) v hok with
    ⟨hg, ht, hv⟩ | ⟨hg, tmi, w, hf, ht, hv⟩
  · have htm : tm = m := by injection ht
    subst htm
    subst hv
    constructor
    · intro s _
      rfl
    · intro s a hgf _ _
      rw [hg] at hgf
      exact Bool.noConfusion hgf
  · have htm : tm = tmi := by injection ht
    subst htm
    subst hv
    constructor
    · intro s hs
      exact (filterLoop_untouched props _ m [] tm w hf s hs).1
    · intro s a _ hm hl
      obtain ⟨b, hp, h1, h2⟩ :=
        filterLoop_retained props _ m [] tm w hf s a hm hl
      refine ⟨b, hp, h1, ?_⟩
      by_cases hs : s = "f_power_consumption"
      · subst hs
        exact lookupA_injectFpc_some w b h2
      · rw [lookupA_injectFpc_ne w s hs]
        exact h2

/-- C1 witness: the amended frame statement applied to the concrete
one-attribute schema, exhibiting the shared mutated attribute. -/
theorem c1_witness :
    ∃ b, processAttr [propFmode0] (PVal.str "f_mode") modeAttr = .ok b ∧
      lookupA [("f_mode", modeAttrMutated)] "f_mode" = some b ∧
      lookupA modeView "f_mode" = some b :=
  (c1_filter_mutation_frame modeSchema [propFmode0]
      [("f_mode", modeAttrMutated)] modeView (by decide)).2
    "f_mode" modeAttr (by decide) (by decide) (by decide)

/-- C5 counterexample: with an unhashable property key in the list, the
bean-class filter degrades to the empty view, which contains neither the
listed-and-present `f_power_display` nor the forced `f_power_consumption` —
so the view does not, for every property list, consist of the retained
attributes plus the forced attribute. -/
theorem c5_counterexample :
    createFilteredParser (.dict scenarioSchema)
        (scenarioProps ++ [propUnhashable]) =
      .ok (.dict scenarioSchema, emptyBeanView) ∧
    lookupA emptyBeanView "f_power_display" = Option.none ∧
    lookupA emptyBeanView "f_power_consumption" = Option.none := by
  decide

/-- C5 (amended): whenever the extracted property keys are all hashable and
the filter returns, the bean-class view's keys are exactly the schema keys
listed in the server property list, plus `f_power_consumption` — forced in
as a read-only Number attribute with step 1 whenever it was not itself
retained from the schema; the humidity-class filter applies the same
retention rule with no forced injection. -/
theorem c5_filtered_view_key_set :
    (∀ (m : AttrMap) (props : List PropRec) (tm v : AttrMap),
      ((extractKeys props).any fun k => !k.hashable) = false →
      createFilteredParser (.dict m) props = .ok (.dict tm, v) →
      (∀ s, s ≠ "f_power_consumption" →
        ((lookupA v s).isSome = true ↔
          PVal.str s ∈ extractKeys props ∧ (lookupA m s).isSome = true)) ∧
      (lookupA v "f_power_consumption").isSome = true ∧
      ((PVal.str "f_power_consumption" ∉ extractKeys props ∨
          lookupA m "f_power_consumption" = Option.none) →
        lookupA v "f_power_consumption" = some fpcDefault)) ∧
    (∀ (m : AttrMap) (props : List PropRec) (tm v : AttrMap),
      ((extractKeys props).any fun k => !k.hashable) = false →
      createHumidityParser (.dict m) props = .ok (.dict tm, v) →
      ∀ s, ((lookupA v s).isSome = true ↔
        PVal.str s ∈ extractKeys props ∧ (lookupA m s).isSome = true)) := by
  constructor
  · intro m props tm v hg hok
    rcases createFilteredParser_ok_cases m props (.dict tm) v hok with
      ⟨hgt, _, _⟩ | ⟨_, tmi, w, hf, ht, hv⟩
    · rw [hg] at hgt
      exact Bool.noConfusion hgt
    · subst hv
      refine ⟨?_, ?_, ?_⟩
      · intro s hsf
        rw [lookupA_injectFpc_ne w s hsf]
        exact filterLoop_view_isSome props m tmi w hf s
      · cases hwl : lookupA w "f_power_consumption" with
        | none => rw [lookupA_injectFpc_none w hwl]; rfl
        | some b => rw [lookupA_injectFpc_some w b hwl]; rfl
      · intro hnr
        have hw : lookupA w "f_power_consumption" = Option.none :=
          (filterLoop_untouched props _ m [] tmi w hf _ hnr).2
        exact lookupA_injectFpc_none w hw
  · intro m props tm v hg hok
    rcases createHumidityParser_ok_cases m props (.dict tm) v hok with
      ⟨hgt, _, _⟩ | ⟨_, tmi, w, hf, ht, hv⟩
    · rw [hg] at hgt
      exact Bool.noConfusion hgt
    · subst hv
      exact filterLoop_view_isSome props m tmi v hf

/-- C5 witness: the amended key-set statement applied to the spec's
scenario — `f_cool_qvalue` is absent from the view produced by filtering
the scenario schema against the one-record property list. -/
theorem c5_witness :
    (lookupA scenarioView "f_cool_qvalue").isSome = true ↔
      PVal.str "f_cool_qvalue" ∈ extractKeys scenarioProps ∧
        (lookupA scenarioSchema "f_cool_qvalue").isSome = true :=
  (c5_filtered_view_key_set.1 scenarioSchema scenarioProps scenarioSchema
      scenarioView (by decide) (by decide)).1 "f_cool_qvalue" (by decide)

/-- C9 counterexample: filtering the empty schema against a property list
that itself names `f_power_consumption` with a value token produces the
injected default attribute, but filtering that view again attaches the
token as the injected attribute's value range — the second view differs
from the first, so filtering is not idempotent for every property list. -/
theorem c9_counterexample :
    createFilteredParser (.dict []) [propFpc] =
      .ok (.dict [], [("f_power_consumption", fpcDefault)]) ∧
    createFilteredParser (.dict [("f_power_consumption", fpcDefault)])
        [propFpc] =
      .ok (.dict [("f_power_consumption", fpcWithRange)],
           [("f_power_consumption", fpcWithRange)]) ∧
    lookupA [("f_power_consumption", fpcWithRange)] "f_power_consumption" ≠
      lookupA [("f_power_consumption", fpcDefault)] "f_power_consumption" := by
  decide

/-- C9 (amended): capability filtering is idempotent as a map — applying
`createFilteredParser` to the view it already produced, with the same
property list, yields a view with the same lookups — provided no property
record names `f_power_consumption` with a truthy value-token string (the
counterexample's sole escape: such a record decorates the injected
attribute on the second pass). -/
theorem c9_filter_idempotent_unless_fpc_listed
    (m : AttrMap) (props : List PropRec) (t1 : AttrsInput) (v1 : AttrMap)
    (t2 : AttrsInput) (v2 : AttrMap)
    (hfpc : ∀ p ∈ props, p.keyGet = PVal.str "f_power_consumption" →
        p.propertyValueList.truthy = false)
    (h1 : createFilteredParser (.dict m) props = .ok (t1, v1))
    (h2 : createFilteredParser (.dict v1) props = .ok (t2, v2)) :
    ∀ s, lookupA v2 s = lookupA v1 s := by
  rcases createFilteredParser_ok_cases m props t1 v1 h1 with
    ⟨hg, _, hv1⟩ | ⟨hg, tm1, w1, hf1, _, hv1⟩
  · subst hv1
    rcases createFilteredParser_ok_cases emptyBeanView props t2 v2 h2 with
      ⟨_, _, hv2⟩ | ⟨hg2, _⟩
    · subst hv2
      intro s
      rfl
    · rw [hg] at hg2
      exact Bool.noConfusion hg2
  · subst hv1
    rcases createFilteredParser_ok_cases (injectFpc w1) props t2 v2 h2 with
      ⟨hg2, _, _⟩ | ⟨_, tm2, w2, hf2, _, hv2⟩
    · rw [hg2] at hg
      exact Bool.noConfusion hg
    · subst hv2
      intro s
      by_cases hsf : s = "f_power_consumption"
      · subst hsf
        by_cases hret : PVal.str "f_power_consumption" ∈ extractKeys props ∧
            ∃ a, lookupA m "f_power_consumption" = some a
        · obtain ⟨hm, a, hl⟩ := hret
          obtain ⟨b, hp, _, hw1⟩ :=
            filterLoop_retained props _ m [] tm1 w1 hf1 _ a hm hl
          have hv1s := lookupA_injectFpc_some w1 b hw1
          obtain ⟨b2, hp2, _, hw2⟩ :=
            filterLoop_retained props _ (injectFpc w1) [] tm2 w2 hf2 _ b hm hv1s
          have hbb := processAttr_idem props _ a b hp
          have hb2 : b2 = b := Except.ok.inj (hbb.symm.trans hp2).symm
          subst hb2
          rw [lookupA_injectFpc_some w2 b2 hw2, hv1s]
        · have hnr : PVal.str "f_power_consumption" ∉ extractKeys props ∨
              lookupA m "f_power_consumption" = Option.none := by
            by_cases hm1 : PVal.str "f_power_consumption" ∈ extractKeys props
            · right
              cases hml : lookupA m "f_power_consumption" with
              | none => rfl
              | some a => exact absurd ⟨hm1, a, hml⟩ hret
            · exact Or.inl hm1
          have hw1n : lookupA w1 "f_power_consumption" = Option.none :=
            (filterLoop_untouched props _ m [] tm1 w1 hf1 _ hnr).2
          have hv1s := lookupA_injectFpc_none w1 hw1n
          by_cases hm1 : PVal.str "f_power_consumption" ∈ extractKeys props
          · obtain ⟨b2, hp2, _, hw2⟩ := filterLoop_retained props _
              (injectFpc w1) [] tm2 w2 hf2 _ fpcDefault hm1 hv1s
            have hb2 : b2 = fpcDefault := by
              cases hscan : scanProps props (PVal.str "f_power_consumption")
                  Option.none with
              | error e =>
                rw [processAttr_eq_err props _ e fpcDefault hscan] at hp2
                exact Except.noConfusion hp2
              | ok pa =>
                obtain ⟨pvl, assigned⟩ := pa
                rw [processAttr_eq_ok props _ pvl assigned fpcDefault hscan]
                  at hp2
                cases assigned with
                | true =>
                  obtain ⟨p, hpm, hpk, hpv, htr⟩ :=
                    scanProps_break_sound props _ _ _ hscan
                  have hke := (pyEq_str_iff _ _).mp hpk
                  have hfal := hfpc p hpm hke
                  rw [hpv] at hfal
                  rw [hfal] at htr
                  exact Bool.noConfusion htr
                | false =>
                  have hvf : applyVmFilter pvl fpcDefault = Except.ok b2 := hp2
                  unfold applyVmFilter at hvf
                  rw [if_pos (show fpcDefault.value_map = [] from rfl)] at hvf
                  exact (Except.ok.inj hvf).symm
            subst hb2
            rw [lookupA_injectFpc_some w2 fpcDefault hw2, hv1s]
          · have hw2n : lookupA w2 "f_power_consumption" = Option.none :=
              (filterLoop_untouched props _ (injectFpc w1) [] tm2 w2 hf2 _
                (Or.inl hm1)).2
            rw [lookupA_injectFpc_none w2 hw2n, hv1s]
      · by_cases hret : PVal.str s ∈ extractKeys props ∧
            ∃ a, lookupA m s = some a
        · obtain ⟨hm, a, hl⟩ := hret
          obtain ⟨b, hp, _, hw1⟩ :=
            filterLoop_retained props _ m [] tm1 w1 hf1 s a hm hl
          have hv1s : lookupA (injectFpc w1) s = some b := by
            rw [lookupA_injectFpc_ne w1 s hsf]
            exact hw1
          obtain ⟨b2, hp2, _, hw2⟩ :=
            filterLoop_retained props _ (injectFpc w1) [] tm2 w2 hf2 s b hm hv1s
          have hbb := processAttr_idem props _ a b hp
          have hb2 : b2 = b := Except.ok.inj (hbb.symm.trans hp2).symm
          subst hb2
          rw [lookupA_injectFpc_ne w2 s hsf, hw2, hv1s]
        · have hnr : PVal.str s ∉ extractKeys props ∨
              lookupA m s = Option.none := by
            by_cases hm1 : PVal.str s ∈ extractKeys props
            · right
              cases hml : lookupA m s with
              | none => rfl
              | some a => exact absurd ⟨hm1, a, hml⟩ hret
            · exact Or.inl hm1
          have hw1n : lookupA w1 s = Option.none :=
            (filterLoop_untouched props _ m [] tm1 w1 hf1 s hnr).2
          have hv1s : lookupA (injectFpc w1) s = Option.none := by
            rw [lookupA_injectFpc_ne w1 s hsf]
            exact hw1n
          have hw2n : lookupA w2 s = Option.none :=
            (filterLoop_untouched props _ (injectFpc w1) [] tm2 w2 hf2 s
              (Or.inr hv1s)).2
          rw [lookupA_injectFpc_ne w2 s hsf, hw2n, hv1s]

/-- C9 witness: the amended idempotence statement applied to the concrete
mode schema — refiltering the produced view yields the same lookups. -/
theorem c9_witness : lookupA modeView "f_mode" = lookupA modeView "f_mode" :=
  c9_filter_idempotent_unless_fpc_listed modeSchema [propFmode0]
    (.dict [("f_mode", modeAttrMutated)]) modeView (.dict modeView) modeView
    (by decide) (by decide) (by decide) "f_mode"

end ConnectLife
